import Mathlib

/-!
Verification of the chunking and RAG-orchestration logic of the repository.

The token-level chunker `split_text_into_chunks` (src/src/text_utils.py) is
embedded over token sequences (`List Nat`): the external `tiktoken`
`encode`/`decode` pair of the tokenizer is out of scope (an external bijection
between texts and token sequences), so a chunk is represented by its token
window rather than its decoded text.  The Python `while` loop is embedded as
a fuel-indexed recursion: `none` models divergence of the loop (the fuel
`tokens.length + 1` is sufficient for every terminating run of the Python
loop, see `chunkLoop_eq_chunksFrom`).
-/

/-- Embedding of the `while current_pos < len(tokens)` loop of
`split_text_into_chunks` (src/src/text_utils.py lines 56-73).  Each iteration
takes the slice `tokens[current_pos:end_pos]` with
`end_pos = min(current_pos + max_tokens_per_chunk, len(tokens))`, appends it,
breaks when `end_pos == len(tokens)`, otherwise advances the cursor by
`max_tokens_per_chunk - overlap_tokens` and breaks when the new cursor is
`>= len(tokens)`.  Natural subtraction agrees with Python here on every
terminating run: when `overlap_tokens >= max_tokens_per_chunk` the Python
loop returns only in the single-window case `len(tokens) <= max`, which the
model reproduces, and otherwise loops forever, which the model maps to
`none`. -/
def chunkLoop (tokens : List Nat) (max_tokens_per_chunk overlap_tokens : Nat) :
    Nat → Nat → Option (List (List Nat))
  | _, 0 => none
  | current_pos, fuel + 1 =>
    if current_pos < tokens.length then
      let end_pos := min (current_pos + max_tokens_per_chunk) tokens.length
      let chunk_tokens := (tokens.drop current_pos).take (end_pos - current_pos)
      if end_pos = tokens.length then
        some [chunk_tokens]
      else
        let next_pos := current_pos + (max_tokens_per_chunk - overlap_tokens)
        if tokens.length ≤ next_pos then
          some [chunk_tokens]
        else
          match chunkLoop tokens max_tokens_per_chunk overlap_tokens next_pos fuel with
          | none => none
          | some rest => some (chunk_tokens :: rest)
    else
      some []

/-- Embedding of `split_text_into_chunks` (src/src/text_utils.py lines 38-75)
on the token level: the cursor starts at `0`; the fuel `tokens.length + 1`
covers every terminating run of the source loop, so `none` means the Python
function diverges. -/
def split_text_into_chunks (tokens : List Nat)
    (max_tokens_per_chunk : Nat := 500) (overlap_tokens : Nat := 50) :
    Option (List (List Nat)) :=
  chunkLoop tokens max_tokens_per_chunk overlap_tokens 0 (tokens.length + 1)

/-- Closed-form description of the chunk list produced from cursor `pos`
with step `s = max_tokens_per_chunk - overlap_tokens`: window after window of
up to `max_tokens_per_chunk` tokens, the cursor advancing by `s`.  Only
meaningful for `0 < s`; `chunkLoop_eq_chunksFrom` identifies it with the
loop. -/
def chunksFrom (tokens : List Nat) (max_tokens_per_chunk s : Nat) (pos : Nat) :
    List (List Nat) :=
  if _h : pos < tokens.length ∧ 0 < s then
    if tokens.length ≤ pos + max_tokens_per_chunk then
      [(tokens.drop pos).take max_tokens_per_chunk]
    else
      (tokens.drop pos).take max_tokens_per_chunk ::
        chunksFrom tokens max_tokens_per_chunk s (pos + s)
  else
    []
termination_by tokens.length - pos
decreasing_by omega

/-- The reconstruction described by the spec: keep the first chunk whole and
drop the first `overlap_tokens` tokens of every later chunk, then
concatenate. -/
def reconstruct (overlap_tokens : Nat) : List (List Nat) → List Nat
  | [] => []
  | c :: rest => c ++ (rest.map (List.drop overlap_tokens)).flatten

/-!
Separator-based chunker `split_text_by_separator`
(src/src/text_utils.py lines 77-112).  Python strings are modelled as
`List Char`; `text.split(separator)` is the Python string-library primitive,
so the embedding takes the resulting parts list as its input.  The budget check of the
source on line 99 reads
`count_tokens(current_chunk + separator + part) > max_tokens_per_chunk`,
but `max_tokens_per_chunk` is neither a parameter of this function nor
defined anywhere in the module, so evaluating the check raises a Python
`NameError`; because `current_chunk and ...` short-circuits, the check (and
hence the error) is reached exactly when `current_chunk` is non-empty, i.e.
from the second non-empty trimmed part on.  The error is modelled with
`Except.error`.
-/

/-- The `NameError` raised by the unbound identifier on line 99 of
src/src/text_utils.py. -/
def nameErrorMsg : String := "NameError: name max_tokens_per_chunk is not defined"

/-- Python `str.strip()`: remove leading and trailing whitespace. -/
def pyStrip (cs : List Char) : List Char :=
  ((cs.dropWhile Char.isWhitespace).reverse.dropWhile Char.isWhitespace).reverse

/-- The `for part in parts` loop of `split_text_by_separator`
(src/src/text_utils.py lines 93-110), including the final flush of a
non-empty accumulator.  The truthiness test `if current_chunk and ...`
short-circuits: with an empty accumulator the (erroneous) budget comparison
is never evaluated and the part starts the accumulator; with a non-empty
accumulator the comparison is evaluated and raises `NameError`. -/
def sepLoop (parts : List (List Char)) (current_chunk : List Char)
    (chunks : List (List Char)) : Except String (List (List Char)) :=
  match parts with
  | [] => Except.ok (if current_chunk.isEmpty then chunks else chunks ++ [current_chunk])
  | p :: rest =>
    let part := pyStrip p
    if part.isEmpty then
      sepLoop rest current_chunk chunks
    else if current_chunk.isEmpty then
      sepLoop rest part chunks
    else
      Except.error nameErrorMsg

/-- Embedding of `split_text_by_separator` (src/src/text_utils.py lines
77-112).  `parts` stands for `text.split(separator)`; `separator` and
`min_length` are carried as in the source (`min_length` is unused there, and
`separator` is only ever used by unreachable code or by the expression whose
evaluation is cut short by the `NameError`). -/
def split_text_by_separator (parts : List (List Char)) (separator : List Char)
    (min_length : Nat := 50) : Except String (List (List Char)) :=
  sepLoop parts [] []

/-!
Orchestration model (src/src/openai_handler.py, src/src/pinecone_manager.py,
src/routes.py, src/flask_routes.py).  The external OpenAI and Pinecone SDK
calls are modelled as function parameters that either return a value or
raise (`Except.error`); embedding vectors are an abstract type `V` (their
float contents are never inspected by this code).  Each adapter also reports
how many network calls to its SDK it made, so that call-count properties
("never invokes the generative model") are expressible.
-/

/-- One element of `results.matches` returned by a Pinecone query: only its
`metadata` map is consumed by the routes (the id and similarity score are
never read there). -/
structure PineMatch where
  metadata : List (String × String)
deriving DecidableEq

/-- The Pinecone index handle: `index.query(vector, top_k, include_metadata,
namespace)` either returns the match list or raises. -/
structure PineconeIndex (V : Type) where
  query : V → Nat → String → Except String (List PineMatch)

/-- The external collaborators of the chat routes:
`embedApi texts` models `client.embeddings.create(input=texts, ...)` (the
vectors extracted from `response.data`); `pineconeIndex` models the result of
`get_index()` in src/src/pinecone_manager.py (`none` when the client raised
and `get_index` returned `None`); `chatApi system_prompt user_message`
models `client.chat.completions.create(...)` (the text of the first
choice). -/
structure Services (V : Type) where
  embedApi : List String → Except String (List V)
  pineconeIndex : Option (PineconeIndex V)
  chatApi : String → String → Except String String

/-- Embedding of `get_embeddings` (src/src/openai_handler.py lines 13-38):
an empty input list returns `[]` without calling the API; otherwise one API
call is made, and an API exception is logged and re-raised.  The second
component counts the network calls. -/
def get_embeddings (embedApi : List String → Except String (List V))
    (texts : List String) : Except String (List V) × Nat :=
  if texts.isEmpty then
    (Except.ok [], 0)
  else
    match embedApi texts with
    | Except.ok response => (Except.ok response, 1)
    | Except.error e => (Except.error e, 1)

/-- The system prompt of `get_chat_completion`
(src/src/openai_handler.py lines 52-65): the retrieved context joined by
`\n\n---\n\n` embedded into the fixed instruction text. -/
def systemPromptFor (context : List String) : String :=
  "\n    You are a helpful AI assistant using a Retrieval Augmented Generation (RAG) system.\n    Answer the user\x27s question based ONLY on the provided context. \n    If the context doesn\x27t contain enough information to answer the question, \n    say \"I don\x27t have enough information to answer that question.\"\n    Don\x27t make up information or use knowledge outside the provided context.\n    Always cite your sources from the context if possible.\n    \n    Context:\n    "
    ++ String.intercalate "\n\n---\n\n" context ++ "\n    "

/-- Embedding of `get_chat_completion` (src/src/openai_handler.py lines
40-79): one chat-completion API call with the built system prompt; an API
exception is logged and re-raised.  The second component counts the network
calls. -/
def get_chat_completion (chatApi : String → String → Except String String)
    (query : String) (context : List String) : Except String String × Nat :=
  match chatApi (systemPromptFor context) query with
  | Except.ok response => (Except.ok response, 1)
  | Except.error e => (Except.error e, 1)

/-- Embedding of `get_similar_documents` (src/src/pinecone_manager.py lines
83-110): when `get_index()` returned `None` the function returns `[]`; when
`index.query` raises, the exception is logged and `[]` is returned. -/
def get_similar_documents (index : Option (PineconeIndex V)) (query_embedding : V)
    (top_k : Nat := 5) (ns : String := "") : List PineMatch :=
  match index with
  | none => []
  | some idx =>
    match idx.query query_embedding top_k ns with
    | Except.ok results => results
    | Except.error _ => []

/-- Outcome of one chat request: a 200 JSON answer with its retrieved
context, a 400 validation error, or a 500 internal error. -/
inductive ChatResult where
  | ok (answer : String) (retrieved_context : List String)
  | badRequest (err : String)
  | serverError (err : String)
deriving DecidableEq

/-- Returns `true` exactly on the 500 outcome. -/
def isServerError : ChatResult → Bool
  | ChatResult.serverError _ => true
  | _ => false

/-- Returns `true` exactly on the 400 outcome. -/
def isBadRequest : ChatResult → Bool
  | ChatResult.badRequest _ => true
  | _ => false

/-- The fixed no-context fallback answer of both chat routes. -/
def fallbackAnswer : String :=
  "I couldn\x27t find any relevant information to answer your question."

/-- Embedding of the FastAPI `chat` handler (src/routes.py lines 15-53).
The `try` body embeds the question, retrieves similar documents, returns the
fixed fallback with empty context when none were retrieved, and otherwise
generates an answer from the extracted context; any raised exception becomes
a 500 with detail `"An error occurred: ..."`.  The result is paired with the
number of embedding-API calls and of chat-completion-API calls made. -/
def fastapi_chat (svc : Services V) (question : String) : ChatResult × Nat × Nat :=
  let er := get_embeddings svc.embedApi [question]
  match er.1 with
  | Except.error e => (ChatResult.serverError ("An error occurred: " ++ e), er.2, 0)
  | Except.ok embeddings =>
    match embeddings with
    | [] =>
      -- `embeddings[0]` raises `IndexError`, caught by the handler
      (ChatResult.serverError "An error occurred: list index out of range", er.2, 0)
    | query_embedding :: _ =>
      let similar_docs := get_similar_documents svc.pineconeIndex query_embedding 5 ""
      if similar_docs.isEmpty then
        (ChatResult.ok fallbackAnswer [], er.2, 0)
      else
        -- `doc["metadata"]["text"]` raises `KeyError` on a missing key
        match similar_docs.mapM (fun doc =>
            match doc.metadata.lookup "text" with
            | some t => Except.ok t
            | none => Except.error "KeyError: text") with
        | Except.error e => (ChatResult.serverError ("An error occurred: " ++ e), er.2, 0)
        | Except.ok context_texts =>
          let cr := get_chat_completion svc.chatApi question context_texts
          match cr.1 with
          | Except.error e =>
            (ChatResult.serverError ("An error occurred: " ++ e), er.2, cr.2)
          | Except.ok answer => (ChatResult.ok answer context_texts, er.2, cr.2)

/-- Embedding of the Flask `chat` handler (src/flask_routes.py lines 13-56).
The JSON body is `none` when `request.get_json()` returned `None`, otherwise
an association list of its object fields; `not data or "question" not in
data` yields a 400.  After validation the flow matches the FastAPI handler,
except that context extraction uses `doc.metadata.get("text", "")`, which
never raises. -/
def flask_chat (svc : Services V) (body : Option (List (String × String))) :
    ChatResult × Nat × Nat :=
  match body with
  | none => (ChatResult.badRequest "Missing question in request", 0, 0)
  | some data =>
    if data.isEmpty then
      (ChatResult.badRequest "Missing question in request", 0, 0)
    else
      match data.lookup "question" with
      | none => (ChatResult.badRequest "Missing question in request", 0, 0)
      | some question =>
        let er := get_embeddings svc.embedApi [question]
        match er.1 with
        | Except.error e => (ChatResult.serverError ("An error occurred: " ++ e), er.2, 0)
        | Except.ok embeddings =>
          match embeddings with
          | [] => (ChatResult.serverError "An error occurred: list index out of range", er.2, 0)
          | query_embedding :: _ =>
            let similar_docs := get_similar_documents svc.pineconeIndex query_embedding 5 ""
            if similar_docs.isEmpty then
              (ChatResult.ok fallbackAnswer [], er.2, 0)
            else
              let context_texts := similar_docs.map (fun doc =>
                (doc.metadata.lookup "text").getD "")
              let cr := get_chat_completion svc.chatApi question context_texts
              match cr.1 with
              | Except.error e =>
                (ChatResult.serverError ("An error occurred: " ++ e), er.2, cr.2)
              | Except.ok answer => (ChatResult.ok answer context_texts, er.2, cr.2)

/-- A service environment whose vector store is reachable but holds no
similar documents. -/
def svcNoResults : Services Unit where
  embedApi := fun _ => Except.ok [()]
  pineconeIndex := some ⟨fun _ _ _ => Except.ok []⟩
  chatApi := fun _ _ => Except.ok "generated answer"

/-- A service environment whose vector-store query raises
(`ServiceUnavailable`). -/
def svcQueryRaises : Services Unit where
  embedApi := fun _ => Except.ok [()]
  pineconeIndex := some ⟨fun _ _ _ => Except.error "ServiceUnavailable"⟩
  chatApi := fun _ _ => Except.ok "generated answer"

/-- A service environment whose embedding call raises. -/
def svcEmbedRaises : Services Unit where
  embedApi := fun _ => Except.error "boom"
  pineconeIndex := some ⟨fun _ _ _ => Except.ok []⟩
  chatApi := fun _ _ => Except.ok "generated answer"

/-- The slice `tokens[pos:min(pos+m, N)]` is just `take m` of the tail at
`pos`. -/
theorem take_window (l : List Nat) (pos m : Nat) :
    (l.drop pos).take (min (pos + m) l.length - pos) = (l.drop pos).take m := by
  rw [List.take_eq_take]
  simp only [List.length_drop]
  omega

/-- For `overlap_tokens < max_tokens_per_chunk` the loop runs to completion
(fuel larger than `tokens.length - pos` suffices, as the cursor strictly
increases) and produces exactly the window list `chunksFrom`. -/
theorem chunkLoop_eq_chunksFrom (tokens : List Nat) (maxT ov : Nat) (hov : ov < maxT) :
    ∀ fuel pos, tokens.length - pos < fuel →
      chunkLoop tokens maxT ov pos fuel =
        some (chunksFrom tokens maxT (maxT - ov) pos) := by
  intro fuel
  induction fuel with
  | zero => intro pos h; omega
  | succ f ih =>
    intro pos h
    rw [chunkLoop, chunksFrom]
    by_cases hpos : pos < tokens.length
    · rw [if_pos hpos, dif_pos ⟨hpos, by omega⟩]
      by_cases hend : min (pos + maxT) tokens.length = tokens.length
      · rw [if_pos hend, if_pos (by omega : tokens.length ≤ pos + maxT), take_window]
      · rw [if_neg hend, if_neg (by omega : ¬ tokens.length ≤ pos + maxT),
          if_neg (by omega : ¬ tokens.length ≤ pos + (maxT - ov)),
          ih (pos + (maxT - ov)) (by omega), take_window]
    · rw [if_neg hpos, dif_neg (by omega : ¬ (pos < tokens.length ∧ 0 < maxT - ov))]

/-- The function `split_text_into_chunks` terminates for `overlap_tokens <
max_tokens_per_chunk` and returns the window list `chunksFrom`. -/
theorem split_eq_chunksFrom (tokens : List Nat) (maxT ov : Nat) (hov : ov < maxT) :
    split_text_into_chunks tokens maxT ov =
      some (chunksFrom tokens maxT (maxT - ov) 0) :=
  chunkLoop_eq_chunksFrom tokens maxT ov hov (tokens.length + 1) 0 (by omega)

/-- Chunk-count closed form: writing `s` for the step and `N` for the token
count, the window list from `pos` has
`max 1 (ceil((N - pos - overlap) / s))` elements while `pos < N`, and none
otherwise. -/
theorem chunksFrom_length (tokens : List Nat) (maxT ov s : Nat) (hs : 0 < s)
    (hm : maxT = ov + s) :
    ∀ pos, (chunksFrom tokens maxT s pos).length =
      if tokens.length ≤ pos then 0
      else max 1 ((tokens.length - pos - ov + s - 1) / s) := by
  have key : ∀ n pos, tokens.length - pos < n →
      (chunksFrom tokens maxT s pos).length =
        if tokens.length ≤ pos then 0
        else max 1 ((tokens.length - pos - ov + s - 1) / s) := by
    intro n
    induction n with
    | zero => intro pos h; omega
    | succ m ih =>
      intro pos h
      rw [chunksFrom]
      by_cases hpos : pos < tokens.length
      · rw [dif_pos ⟨hpos, hs⟩, if_neg (by omega : ¬ tokens.length ≤ pos)]
        by_cases hterm : tokens.length ≤ pos + maxT
        · rw [if_pos hterm]
          have hlt : (tokens.length - pos - ov + s - 1) / s < 2 :=
            (Nat.div_lt_iff_lt_mul hs).mpr (by omega)
          simp only [List.length_cons, List.length_nil]
          omega
        · rw [if_neg hterm]
          simp only [List.length_cons]
          rw [ih (pos + s) (by omega), if_neg (by omega : ¬ tokens.length ≤ pos + s)]
          have e1 : tokens.length - (pos + s) - ov + s - 1 =
              tokens.length - pos - ov - 1 := by omega
          have e2 : tokens.length - pos - ov + s - 1 =
              (tokens.length - pos - ov - 1) + s := by omega
          rw [e1, e2, Nat.add_div_right _ hs]
          have hX : 1 ≤ (tokens.length - pos - ov - 1) / s :=
            (Nat.one_le_div_iff hs).mpr (by omega)
          rw [Nat.max_eq_right hX, Nat.max_eq_right (Nat.succ_le_succ (Nat.zero_le _))]
      · rw [dif_neg (by omega : ¬ (pos < tokens.length ∧ 0 < s)),
          if_pos (by omega : tokens.length ≤ pos)]
        rfl
  intro pos
  exact key (tokens.length - pos + 1) pos (by omega)

/-- Dropping the first `overlap_tokens` tokens of every window from `pos` and
concatenating yields exactly `tokens[pos + overlap_tokens:]`. -/
theorem chunksFrom_drop_flatten (tokens : List Nat) (maxT ov s : Nat) (hs : 0 < s)
    (hm : maxT = ov + s) :
    ∀ pos, ((chunksFrom tokens maxT s pos).map (List.drop ov)).flatten =
      tokens.drop (pos + ov) := by
  have key : ∀ n pos, tokens.length - pos < n →
      ((chunksFrom tokens maxT s pos).map (List.drop ov)).flatten =
        tokens.drop (pos + ov) := by
    intro n
    induction n with
    | zero => intro pos h; omega
    | succ m ih =>
      intro pos h
      rw [chunksFrom]
      by_cases hpos : pos < tokens.length
      · rw [dif_pos ⟨hpos, hs⟩]
        by_cases hterm : tokens.length ≤ pos + maxT
        · rw [if_pos hterm]
          simp only [List.map_cons, List.map_nil, List.flatten_cons, List.flatten_nil,
            List.append_nil]
          rw [List.drop_take, List.drop_drop]
          have e1 : maxT - ov = s := by omega
          rw [e1]
          exact List.take_of_length_le (by simp only [List.length_drop]; omega)
        · rw [if_neg hterm]
          simp only [List.map_cons, List.flatten_cons]
          rw [ih (pos + s) (by omega), List.drop_take, List.drop_drop]
          have e1 : maxT - ov = s := by omega
          have e2 : pos + s + ov = s + (pos + ov) := by omega
          rw [e1, e2, List.drop_take_append_drop']
      · rw [dif_neg (by omega : ¬ (pos < tokens.length ∧ 0 < s))]
        simp only [List.map_nil, List.flatten_nil]
        exact (List.drop_eq_nil_of_le (by omega)).symm
  intro pos
  exact key (tokens.length - pos + 1) pos (by omega)

/-- The round trip stated by the spec: the first window followed by the
`overlap_tokens`-trimmed later windows concatenates back to the whole token
sequence. -/
theorem reconstruct_chunksFrom (tokens : List Nat) (maxT ov : Nat) (hov : ov < maxT) :
    reconstruct ov (chunksFrom tokens maxT (maxT - ov) 0) = tokens := by
  have hs : 0 < maxT - ov := by omega
  have hm : maxT = ov + (maxT - ov) := by omega
  rw [chunksFrom]
  by_cases h0 : 0 < tokens.length
  · rw [dif_pos ⟨h0, hs⟩]
    by_cases hterm : tokens.length ≤ 0 + maxT
    · rw [if_pos hterm]
      show (tokens.drop 0).take maxT ++ _ = tokens
      simp only [List.map_nil, List.flatten_nil, List.append_nil, List.drop_zero]
      exact List.take_of_length_le (by omega)
    · rw [if_neg hterm]
      show (tokens.drop 0).take maxT ++
        ((chunksFrom tokens maxT (maxT - ov) (0 + (maxT - ov))).map
          (List.drop ov)).flatten = tokens
      rw [chunksFrom_drop_flatten tokens maxT ov (maxT - ov) hs hm]
      have e1 : 0 + (maxT - ov) + ov = maxT := by omega
      rw [e1, List.drop_zero, List.take_append_drop]
  · rw [dif_neg (by omega : ¬ (0 < tokens.length ∧ 0 < maxT - ov))]
    have : tokens = [] := List.length_eq_zero.mp (by omega)
    rw [this]
    rfl

/-- Whenever the source loop returns, chunk number `i` (counting from the
cursor `pos`) is the window of up to `max_tokens_per_chunk` tokens starting
at `pos + i * (max_tokens_per_chunk - overlap_tokens)`; in particular the
chunks appear in order of their start positions. -/
theorem chunkLoop_get (tokens : List Nat) (maxT ov : Nat) :
    ∀ fuel pos cs, chunkLoop tokens maxT ov pos fuel = some cs →
      ∀ i : Fin cs.length,
        cs.get i = (tokens.drop (pos + i.1 * (maxT - ov))).take maxT := by
  intro fuel
  induction fuel with
  | zero =>
    intro pos cs h
    rw [chunkLoop] at h
    exact Option.noConfusion h
  | succ f ih =>
    intro pos cs h
    rw [chunkLoop] at h
    by_cases hpos : pos < tokens.length
    · rw [if_pos hpos] at h
      by_cases hend : min (pos + maxT) tokens.length = tokens.length
      · rw [if_pos hend] at h
        cases h
        intro i
        obtain ⟨i, hi⟩ := i
        cases i with
        | zero =>
          simp only [List.get, Nat.zero_mul, Nat.add_zero]
          exact take_window tokens pos maxT
        | succ j => simp at hi
      · rw [if_neg hend] at h
        by_cases hnext : tokens.length ≤ pos + (maxT - ov)
        · rw [if_pos hnext] at h
          cases h
          intro i
          obtain ⟨i, hi⟩ := i
          cases i with
          | zero =>
            simp only [List.get, Nat.zero_mul, Nat.add_zero]
            exact take_window tokens pos maxT
          | succ j => simp at hi
        · rw [if_neg hnext] at h
          cases hrec : chunkLoop tokens maxT ov (pos + (maxT - ov)) f with
          | none => rw [hrec] at h; exact Option.noConfusion h
          | some rest =>
            rw [hrec] at h
            cases h
            intro i
            obtain ⟨i, hi⟩ := i
            cases i with
            | zero =>
              simp only [List.get, Nat.zero_mul, Nat.add_zero]
              exact take_window tokens pos maxT
            | succ j =>
              have hj : j < rest.length := by
                simpa using Nat.lt_of_succ_lt_succ hi
              have hr := ih (pos + (maxT - ov)) rest hrec ⟨j, hj⟩
              simp only [List.get] at hr ⊢
              rw [hr]
              have e1 : pos + (maxT - ov) + j * (maxT - ov) =
                  pos + (j + 1) * (maxT - ov) := by ring
              rw [e1]
    · rw [if_neg hpos] at h
      cases h
      intro i
      exact absurd i.2 (by simp)

/-- Applying `reconstruct` with zero overlap is plain concatenation. -/
theorem reconstruct_zero : ∀ cs : List (List Nat), reconstruct 0 cs = cs.flatten
  | [] => rfl
  | c :: rest => by
    simp only [reconstruct, List.flatten_cons]
    congr 1
    induction rest with
    | nil => rfl
    | cons d ds ihh => simp only [List.map_cons, List.flatten_cons, List.drop_zero, ihh]

/-- C1: for `max_tokens_per_chunk > 0` and `0 ≤ overlap_tokens <
max_tokens_per_chunk`, `split_text_into_chunks` on an `N`-token sequence
returns (writing `s = max_tokens_per_chunk - overlap_tokens`) exactly
`ceil((N - overlap_tokens) / s)` chunks whenever `overlap_tokens < N`, with
the boundary cases adjusted for the final partial window: `0` chunks for
`N = 0` and one chunk for `0 < N ≤ overlap_tokens`, as the closed form
`max 1 (ceil)` states.  (The 1900/500/50 ↦ 5 instance is the witness.) -/
theorem c1_chunk_count (tokens : List Nat) (maxT ov : Nat)
    (hmax : 0 < maxT) (hov : ov < maxT) :
    split_text_into_chunks tokens maxT ov =
      some (chunksFrom tokens maxT (maxT - ov) 0) ∧
    (chunksFrom tokens maxT (maxT - ov) 0).length =
      (if tokens.length = 0 then 0
       else max 1 ((tokens.length - ov + (maxT - ov) - 1) / (maxT - ov))) ∧
    (ov < tokens.length →
      (chunksFrom tokens maxT (maxT - ov) 0).length =
        (tokens.length - ov + (maxT - ov) - 1) / (maxT - ov)) := by
  have hs : 0 < maxT - ov := by omega
  have hlen := chunksFrom_length tokens maxT ov (maxT - ov) hs (by omega) 0
  refine ⟨split_eq_chunksFrom tokens maxT ov hov, ?_, ?_⟩
  · rw [hlen]
    simp only [Nat.sub_zero, Nat.le_zero]
  · intro hlt
    rw [hlen, if_neg (by omega)]
    simp only [Nat.sub_zero]
    exact Nat.max_eq_right ((Nat.one_le_div_iff hs).mpr (by omega))

/-- Witness for C1: the example given by the spec, a 1900-token input with
`max_tokens_per_chunk = 500` and `overlap_tokens = 50`, yields exactly 5
chunks. -/
theorem c1_chunk_count_witness :
    split_text_into_chunks (List.replicate 1900 0) 500 50 =
      some (chunksFrom (List.replicate 1900 0) 500 450 0) ∧
    (chunksFrom (List.replicate 1900 0) 500 450 0).length = 5 := by
  have h := c1_chunk_count (List.replicate 1900 0) 500 50 (by decide) (by decide)
  refine ⟨h.1, ?_⟩
  rw [h.2.1]
  simp only [List.length_replicate]
  decide

/-- C2: for `max_tokens_per_chunk > 0` and `0 ≤ overlap_tokens <
max_tokens_per_chunk` the sliding-window loop terminates (the model returns
`some`, `none` being its rendering of divergence): the cursor strictly
increases each iteration and the loop exits when the window reaches the end
of the sequence. -/
theorem c2_termination (tokens : List Nat) (maxT ov : Nat)
    (hmax : 0 < maxT) (hov : ov < maxT) :
    (split_text_into_chunks tokens maxT ov).isSome = true := by
  rw [split_eq_chunksFrom tokens maxT ov hov]
  rfl

/-- Witness for C2 at a concrete input. -/
theorem c2_termination_witness :
    (split_text_into_chunks [1, 2, 3, 4, 5] 2 1).isSome = true :=
  c2_termination [1, 2, 3, 4, 5] 2 1 (by decide) (by decide)

/-- C3: concatenating the chunks while dropping the first `overlap_tokens`
tokens of every chunk after the first reconstructs the original token
sequence; with `overlap_tokens = 0` the chunks exactly tile the input. -/
theorem c3_round_trip (tokens : List Nat) (maxT ov : Nat) (cs : List (List Nat))
    (hov : ov < maxT)
    (hsplit : split_text_into_chunks tokens maxT ov = some cs) :
    reconstruct ov cs = tokens ∧ (ov = 0 → cs.flatten = tokens) := by
  have heq : cs = chunksFrom tokens maxT (maxT - ov) 0 := by
    have h := split_eq_chunksFrom tokens maxT ov hov
    rw [hsplit] at h
    exact Option.some.inj h
  subst heq
  refine ⟨reconstruct_chunksFrom tokens maxT ov hov, ?_⟩
  intro h0
  subst h0
  rw [← reconstruct_zero]
  exact reconstruct_chunksFrom tokens maxT 0 hov

/-- Witness for C3 at a concrete input (10 tokens, window 5, overlap 2). -/
theorem c3_round_trip_witness :
    reconstruct 2 [[0, 1, 2, 3, 4], [3, 4, 5, 6, 7], [6, 7, 8, 9]] =
      [0, 1, 2, 3, 4, 5, 6, 7, 8, 9] :=
  (c3_round_trip [0, 1, 2, 3, 4, 5, 6, 7, 8, 9] 5 2
    [[0, 1, 2, 3, 4], [3, 4, 5, 6, 7], [6, 7, 8, 9]] (by decide) (by decide)).1

/-- C8: whenever `split_text_into_chunks` returns, every chunk has at most
`max_tokens_per_chunk` tokens, and the chunks come in order of their start
positions: chunk `i` is the window starting at
`i * (max_tokens_per_chunk - overlap_tokens)`. -/
theorem c8_chunk_size_and_order (tokens : List Nat) (maxT ov : Nat)
    (cs : List (List Nat)) (hmax : 0 < maxT)
    (hsplit : split_text_into_chunks tokens maxT ov = some cs) :
    (∀ c ∈ cs, c.length ≤ maxT) ∧
    (∀ i : Fin cs.length,
      cs.get i = (tokens.drop (i.1 * (maxT - ov))).take maxT) := by
  have hget := chunkLoop_get tokens maxT ov (tokens.length + 1) 0 cs hsplit
  constructor
  · intro c hc
    obtain ⟨i, hi⟩ := List.mem_iff_get.mp hc
    rw [← hi, hget i]
    simp only [List.length_take]
    exact Nat.min_le_left _ _
  · intro i
    have h := hget i
    rw [h]
    simp only [Nat.zero_add]

/-- Witness for C8 at a concrete input: the middle chunk of a 10-token split
with window 5 and overlap 2 has at most 5 tokens and starts at position
`1 * (5 - 2)`. -/
theorem c8_chunk_size_and_order_witness :
    ([3, 4, 5, 6, 7] : List Nat).length ≤ 5 ∧
    ([[0, 1, 2, 3, 4], [3, 4, 5, 6, 7], [6, 7, 8, 9]] : List (List Nat)).get
        ⟨1, by decide⟩ =
      (([0, 1, 2, 3, 4, 5, 6, 7, 8, 9] : List Nat).drop (1 * (5 - 2))).take 5 := by
  have h := c8_chunk_size_and_order [0, 1, 2, 3, 4, 5, 6, 7, 8, 9] 5 2
    [[0, 1, 2, 3, 4], [3, 4, 5, 6, 7], [6, 7, 8, 9]] (by decide) (by decide)
  exact ⟨h.1 [3, 4, 5, 6, 7] (by decide), h.2 ⟨1, by decide⟩⟩

/-- C9: `get_embeddings` applied to an empty list of texts returns an empty
list and makes zero network calls to the embedding service. -/
theorem c9_empty_embeddings {V : Type}
    (embedApi : List String → Except String (List V)) :
    get_embeddings embedApi [] = (Except.ok [], 0) := rfl

/-- C4: when retrieval returns zero similar documents, both chat handlers
return the fixed fallback answer with an empty context list and make zero
chat-completion calls (while having made the one embedding call). -/
theorem c4_zero_results_fallback {V : Type} (svc : Services V) (question : String)
    (qe : V) (rest : List V)
    (hembed : svc.embedApi [question] = Except.ok (qe :: rest))
    (hzero : get_similar_documents svc.pineconeIndex qe 5 "" = []) :
    fastapi_chat svc question = (ChatResult.ok fallbackAnswer [], 1, 0) ∧
    ∀ data : List (String × String), data.isEmpty = false →
      data.lookup "question" = some question →
      flask_chat svc (some data) = (ChatResult.ok fallbackAnswer [], 1, 0) := by
  constructor
  · simp [fastapi_chat, get_embeddings, hembed, hzero]
  · intro data hne hq
    simp [flask_chat, hne, hq, get_embeddings, hembed, hzero]

/-- Witness for C4 at a concrete service environment with an empty index. -/
theorem c4_zero_results_fallback_witness :
    fastapi_chat svcNoResults "hello" = (ChatResult.ok fallbackAnswer [], 1, 0) ∧
    flask_chat svcNoResults (some [("question", "hello")]) =
      (ChatResult.ok fallbackAnswer [], 1, 0) := by
  have h := c4_zero_results_fallback svcNoResults "hello" () [] rfl rfl
  exact ⟨h.1, h.2 [("question", "hello")] rfl rfl⟩

/-- Counterexample to C5 as stated: with a reachable embedding service but a
vector store whose query call raises, the FastAPI chat handler returns the
fallback success answer (a 200), not a 500/error response — the failure is
silently converted into a successful answer by `get_similar_documents`. -/
theorem c5_error_surfaced_counterexample :
    fastapi_chat svcQueryRaises "any question" =
      (ChatResult.ok fallbackAnswer [], 1, 0) ∧
    isServerError (fastapi_chat svcQueryRaises "any question").1 = false :=
  ⟨rfl, rfl⟩

/-- C5 amended: a vector-store failure (unreachable index or raising query)
is swallowed inside `get_similar_documents`, so the chat handler returns the
fixed fallback answer as a success and never calls the generative model;
only failures outside that adapter — e.g. an embedding-service error — are
surfaced to the caller as a 500 with error detail. -/
theorem c5_error_swallowed {V : Type} (svc : Services V) (question : String)
    (qe : V) (rest : List V)
    (hembed : svc.embedApi [question] = Except.ok (qe :: rest))
    (hidx : ∀ idx, svc.pineconeIndex = some idx →
      ∃ e, idx.query qe 5 "" = Except.error e) :
    fastapi_chat svc question = (ChatResult.ok fallbackAnswer [], 1, 0) ∧
    ∀ (svc2 : Services V) (q2 : String) (e : String),
      svc2.embedApi [q2] = Except.error e →
      fastapi_chat svc2 q2 =
        (ChatResult.serverError ("An error occurred: " ++ e), 1, 0) := by
  constructor
  · have hzero : get_similar_documents svc.pineconeIndex qe 5 "" = [] := by
      cases hP : svc.pineconeIndex with
      | none => simp [get_similar_documents]
      | some idx =>
        obtain ⟨e, he⟩ := hidx idx hP
        simp [get_similar_documents, he]
    simp [fastapi_chat, get_embeddings, hembed, hzero]
  · intro svc2 q2 e he
    simp [fastapi_chat, get_embeddings, he]

/-- Witness for the amended C5: a raising vector store yields the fallback
success; a raising embedding service yields the 500. -/
theorem c5_error_swallowed_witness :
    fastapi_chat svcQueryRaises "q" = (ChatResult.ok fallbackAnswer [], 1, 0) ∧
    fastapi_chat svcEmbedRaises "q" =
      (ChatResult.serverError ("An error occurred: " ++ "boom"), 1, 0) := by
  have h := c5_error_swallowed svcQueryRaises "q" () []
    rfl
    (fun idx hP => by
      have hval := Option.some.inj hP
      exact ⟨"ServiceUnavailable", by rw [← hval]⟩)
  exact ⟨h.1, h.2 svcEmbedRaises "q" "boom" rfl⟩

/-- Counterexample to C6 as stated: a body carrying `question: ""` (the
empty string) passes the Flask validation `not data or "question" not in
data` — the handler does not return 400 and does reach the orchestration
logic, making the embedding network call. -/
theorem c6_empty_question_counterexample :
    flask_chat svcNoResults (some [("question", "")]) =
      (ChatResult.ok fallbackAnswer [], 1, 0) ∧
    isBadRequest (flask_chat svcNoResults (some [("question", "")])).1 = false ∧
    (flask_chat svcNoResults (some [("question", "")])).2.1 = 1 :=
  ⟨rfl, rfl, rfl⟩

/-- C6 amended: a null/non-object body, an empty JSON object, or a body
without a `question` key yields a 400 with an error field and makes no
service call; an empty-string `question`, however, passes the validation and
reaches the orchestration logic (the embedding call is made). -/
theorem c6_validation {V : Type} (svc : Services V) (data : List (String × String)) :
    flask_chat svc none = (ChatResult.badRequest "Missing question in request", 0, 0) ∧
    (data.isEmpty = true →
      flask_chat svc (some data) =
        (ChatResult.badRequest "Missing question in request", 0, 0)) ∧
    (data.lookup "question" = none →
      flask_chat svc (some data) =
        (ChatResult.badRequest "Missing question in request", 0, 0)) ∧
    (∀ q, data.lookup "question" = some q → data.isEmpty = false →
      (flask_chat svc (some data)).2.1 = 1) := by
  refine ⟨rfl, ?_, ?_, ?_⟩
  · intro h
    simp [flask_chat, h]
  · intro h
    by_cases he : data.isEmpty <;> simp [flask_chat, h, he]
  · intro q hq hne
    simp only [flask_chat, hne, hq, get_embeddings, List.isEmpty_cons,
      Bool.false_eq_true, if_false]
    cases hE : svc.embedApi [q] with
    | error e => simp
    | ok embeddings =>
      cases embeddings with
      | nil => simp
      | cons qe vrest =>
        by_cases hD : (get_similar_documents svc.pineconeIndex qe 5 "").isEmpty <;>
          simp [hD, get_chat_completion] <;>
          cases svc.chatApi (systemPromptFor ((get_similar_documents
            svc.pineconeIndex qe 5 "").map (fun doc =>
              (doc.metadata.lookup "text").getD ""))) q <;> simp

/-- Witness for the amended C6: an empty JSON object gets the 400; an
empty-string question reaches orchestration (one embedding call). -/
theorem c6_validation_witness :
    flask_chat svcNoResults (some ([] : List (String × String))) =
      (ChatResult.badRequest "Missing question in request", 0, 0) ∧
    (flask_chat svcNoResults (some [("question", "")])).2.1 = 1 := by
  have h1 := c6_validation svcNoResults ([] : List (String × String))
  have h2 := c6_validation svcNoResults [("question", "")]
  exact ⟨h1.2.1 rfl, h2.2.2.2 "" rfl rfl⟩

/-- Once the accumulator is non-empty, the next non-empty trimmed part
triggers the unbound-name budget check: the loop returns the flushed
accumulator if no such part remains and raises `NameError` otherwise. -/
theorem sepLoop_acc (parts : List (List Char)) :
    ∀ cc chunks, cc.isEmpty = false →
      sepLoop parts cc chunks =
        (if ((parts.map pyStrip).filter (fun p => !p.isEmpty)).isEmpty then
          Except.ok (chunks ++ [cc])
        else Except.error nameErrorMsg) := by
  induction parts with
  | nil =>
    intro cc chunks hcc
    simp [sepLoop, hcc]
  | cons p rest ih =>
    intro cc chunks hcc
    simp only [sepLoop, List.map_cons, List.filter_cons]
    by_cases hp : (pyStrip p).isEmpty
    · simp only [hp, if_pos, Bool.not_true, Bool.false_eq_true, if_false]
      exact ih cc chunks hcc
    · simp only [Bool.not_eq_true] at hp
      simp [hp, hcc]
  
/-- Starting from an empty accumulator, the loop returns the (at most one)
non-empty trimmed part if there are fewer than two of them, and raises
`NameError` otherwise. -/
theorem sepLoop_start (parts : List (List Char)) :
    ∀ chunks, sepLoop parts [] chunks =
      (if ((parts.map pyStrip).filter (fun p => !p.isEmpty)).length ≤ 1 then
        Except.ok (chunks ++ (parts.map pyStrip).filter (fun p => !p.isEmpty))
      else Except.error nameErrorMsg) := by
  induction parts with
  | nil =>
    intro chunks
    simp [sepLoop]
  | cons p rest ih =>
    intro chunks
    simp only [sepLoop, List.map_cons, List.filter_cons]
    by_cases hp : (pyStrip p).isEmpty
    · simp only [hp, Bool.not_true, Bool.false_eq_true, if_false, if_pos]
      exact ih chunks
    · simp only [Bool.not_eq_true] at hp
      simp only [hp, Bool.not_false, if_pos, Bool.false_eq_true, if_false,
        List.isEmpty_nil]
      rw [sepLoop_acc rest (pyStrip p) chunks (by simp [hp])]
      by_cases hF : ((rest.map pyStrip).filter (fun q => !q.isEmpty)).isEmpty
      · rw [if_pos hF, if_pos]
        · rw [List.isEmpty_iff.mp hF]
        · rw [List.isEmpty_iff.mp hF]
          simp
      · rw [if_neg hF, if_neg]
        have : 0 < ((rest.map pyStrip).filter (fun q => !q.isEmpty)).length := by
          cases hL : (rest.map pyStrip).filter (fun q => !q.isEmpty) with
          | nil => rw [hL] at hF; simp at hF
          | cons a as => simp [hL]
        simp only [List.length_cons]
        omega

/-- C10: whenever splitting the input on the separator yields at least two
non-empty trimmed parts, `split_text_by_separator` raises the `NameError`
for the unbound `max_tokens_per_chunk`; with at most one non-empty trimmed
part it returns that part, stripped, as the single chunk (or no chunk at
all when every part is empty after trimming). -/
theorem c10_separator_unbound_name (parts : List (List Char))
    (separator : List Char) (min_length : Nat) :
    (2 ≤ ((parts.map pyStrip).filter (fun p => !p.isEmpty)).length →
      split_text_by_separator parts separator min_length =
        Except.error nameErrorMsg) ∧
    (((parts.map pyStrip).filter (fun p => !p.isEmpty)).length ≤ 1 →
      split_text_by_separator parts separator min_length =
        Except.ok ((parts.map pyStrip).filter (fun p => !p.isEmpty))) := by
  unfold split_text_by_separator
  rw [sepLoop_start parts []]
  constructor
  · intro h2
    rw [if_neg (by omega)]
  · intro h1
    rw [if_pos h1]
    simp

/-- Witness for C10: two non-empty parts raise the `NameError`. -/
theorem c10_separator_unbound_name_witness :
    2 ≤ (([['a'], ['b']].map pyStrip).filter (fun p => !p.isEmpty)).length ∧
    split_text_by_separator [['a'], ['b']] ['\n', '\n'] 50 =
      Except.error nameErrorMsg :=
  ⟨by decide, (c10_separator_unbound_name [['a'], ['b']] ['\n', '\n'] 50).1 (by decide)⟩

/-- C7 (code bug): the claimed input — `"a\n\nb\n\nc"` split on `"\n\n"`,
i.e. the parts `["a", "b", "c"]` — does not produce the single chunk
`"a\n\nb\n\nc"`: the budget check references the unbound name
`max_tokens_per_chunk`, so the function raises `NameError` at the second
non-empty part instead of returning any chunk list. -/
theorem c7_separator_example_raises :
    split_text_by_separator [['a'], ['b'], ['c']] ['\n', '\n'] 50 =
      Except.error nameErrorMsg := rfl
